import Mathlib

/-!
Verification of the weather-dashboard core (src/main.py) against its
natural-language specification.

The Python source is shallowly embedded: the module-level dict
`weather_cache` becomes an association list threaded explicitly through
each operation, `datetime.now()` becomes an explicit `now : Nat`
argument (seconds), timestamps are `Nat`, upstream floats are modelled
as `Rat`, and every fallible path returns an explicit result value.
-/

set_option maxRecDepth 100000

namespace Weather

/-! ### TTL cache (src/main.py lines 23-118, 363-381)

The Python module keeps a dict `weather_cache : key -> {"data": ..,
"timestamp": ..}`.  We model the dict as an association list with
unique keys (a dict can never hold a duplicate key); insertion of a
fresh key appends, assignment to an existing key replaces in place,
matching CPython dict semantics. -/

/-- One cache slot: the Python dict value `{"data": data, "timestamp": now}`
stored by `cache_data` (src/main.py lines 103-108). -/
structure CacheEntry (V : Type) where
  data : V
  timestamp : Nat
deriving DecidableEq

/-- The module-level dict `weather_cache` (src/main.py line 24). -/
abbrev Cache (V : Type) := List (String × CacheEntry V)

/-- `CACHE_DURATION = 600` seconds (src/main.py line 25). -/
def CACHE_DURATION : Nat := 600

/-- `is_cache_valid` (src/main.py lines 99-101):
`datetime.now() - timestamp < timedelta(seconds=CACHE_DURATION)`.
The clock is passed explicitly; `Nat` subtraction truncates at zero,
which agrees with Python where a negative timedelta is `< 600s`. -/
def is_cache_valid (now tstamp : Nat) : Bool :=
  now - tstamp < CACHE_DURATION

/-- `cache_data` (src/main.py lines 103-108): `weather_cache[key] = {...}`.
Dict assignment: replace in place when the key is present, append
otherwise. -/
def cache_data {V : Type} (key : String) (d : V) (now : Nat) : Cache V → Cache V
  | [] => [(key, ⟨d, now⟩)]
  | p :: rest =>
    if p.1 == key then (key, ⟨d, now⟩) :: rest
    else p :: cache_data key d now rest

/-- `get_cached_data` (src/main.py lines 110-118): returns the stored
value when present and valid; when present but stale it executes
`del weather_cache[key]` and returns `None`.  The (possibly pruned)
dict is threaded back explicitly. -/
def get_cached_data {V : Type} (key : String) (now : Nat) (c : Cache V) :
    Option V × Cache V :=
  match c.find? (fun p => p.1 == key) with
  | some p =>
    if is_cache_valid now p.2.timestamp then (some p.2.data, c)
    else (none, c.eraseP (fun q => q.1 == key))
  | none => (none, c)

/-- `get_cache_stats` (src/main.py lines 363-381): one pass over the dict
incrementing a valid / an expired counter, plus `len(weather_cache)`.
The unchanged dict is returned alongside to make the read-only frame
explicit. -/
def get_cache_stats {V : Type} (now : Nat) (c : Cache V) :
    (Nat × Nat × Nat) × Cache V :=
  let counts := c.foldl
    (fun acc p =>
      if is_cache_valid now p.2.timestamp then (acc.1 + 1, acc.2)
      else (acc.1, acc.2 + 1))
    (0, 0)
  ((c.length, counts.1, counts.2), c)

/-! ### Fingerprint builder (src/main.py lines 94-97) -/

/-- A JSON scalar appearing as a parameter value: the endpoints only ever
pass strings and ints (`location`, `units`, `query`: str; `days`,
`limit`: int). -/
inductive Scalar where
  | s (v : String)
  | n (v : Int)
deriving DecidableEq

/-- `json.dumps` rendering of one scalar. -/
def scalarRepr : Scalar → String
  | .s v => "\"" ++ v ++ "\""
  | .n v => toString v

/-- Python string comparison: lexicographic by code point, a strict
prefix preceding its extensions.  This is the order `sorted`/`sort_keys`
uses on `str` keys. -/
def lexLeChars : List Char → List Char → Bool
  | [], _ => true
  | _ :: _, [] => false
  | a :: as, b :: bs =>
    if a < b then true
    else if b < a then false
    else lexLeChars as bs

/-- The key order used by `json.dumps(..., sort_keys=True)`. -/
def keyLe (p q : String × Scalar) : Prop :=
  lexLeChars p.1.toList q.1.toList = true

instance : DecidableRel keyLe := fun p q =>
  inferInstanceAs (Decidable (lexLeChars p.1.toList q.1.toList = true))

/-- `json.dumps(params, sort_keys=True)` (src/main.py line 96): the
parameter pairs sorted by key, rendered as a JSON object. -/
def jsonDumpsSorted (params : List (String × Scalar)) : String :=
  let sorted := List.insertionSort keyLe params
  "\x7b" ++ String.intercalate ", "
    (sorted.map (fun p => "\"" ++ p.1 ++ "\": " ++ scalarRepr p.2)) ++ "\x7d"

/-- Deterministic stand-in for `hashlib.md5(...).hexdigest()`
(src/main.py line 97).  The claims under verification concern only
determinism and order-independence of the fingerprint, never any
property of the MD5 compression function itself, so any fixed
deterministic digest of the serialized string is a faithful model. -/
def md5Hex (s : String) : String :=
  Nat.repr (s.toList.foldl (fun a c => (a * 131 + c.toNat) % 2 ^ 128) 0)

/-- `get_cache_key` (src/main.py lines 94-97):
`md5(f"{endpoint}:{param_str}".encode()).hexdigest()`. -/
def get_cache_key (endpoint : String) (params : List (String × Scalar)) : String :=
  md5Hex (endpoint ++ ":" ++ jsonDumpsSorted params)

/-! ### Forecast aggregation (src/main.py lines 255-283)

One raw 3-hourly forecast entry of the upstream payload carries exactly
the fields the loop reads: `item["dt"]`, `item["main"]["temp"]`,
`item["main"]["humidity"]`, `item["weather"][0]` and
`item["wind"]["speed"]`.  Upstream floats are modelled as `Rat`. -/

/-- One element of `data["list"]` with the fields read by the loop. -/
structure RawSample where
  dt : Nat
  temp : Rat
  humidity : Nat
  weatherMain : String
  weatherDescription : String
  icon : String
  windSpeed : Rat
deriving DecidableEq

/-- The calendar day of a sample:
`datetime.fromtimestamp(item["dt"]).strftime("%Y-%m-%d")`
(src/main.py line 258) buckets by calendar date; we model the date as
the day number since the epoch, a fixed day boundary.  Two samples get
the same date string iff they get the same day number. -/
def dateOf (s : RawSample) : Nat := s.dt / 86400

/-- One value of the `daily_forecasts` dict (src/main.py lines 261-266):
growing temp/humidity lists plus the weather object and wind speed of
the first sample that created the bucket. -/
structure DayBucket where
  date : Nat
  temps : List Rat
  humidity : List Nat
  weatherMain : String
  weatherDescription : String
  icon : String
  windSpeed : Rat
deriving DecidableEq

/-- One iteration of the grouping loop (src/main.py lines 257-269): create
the bucket on first encounter of the date (capturing `item["weather"][0]`
and `item["wind"]["speed"]`), then append the sample's temperature and
humidity to the bucket.  Dicts preserve insertion order, hence the list
of buckets in first-seen order. -/
def addSample (acc : List DayBucket) (s : RawSample) : List DayBucket :=
  if acc.any (fun b => b.date == dateOf s) then
    acc.map (fun b =>
      if b.date = dateOf s then
        { b with temps := b.temps ++ [s.temp], humidity := b.humidity ++ [s.humidity] }
      else b)
  else
    acc ++ [{ date := dateOf s, temps := [s.temp], humidity := [s.humidity],
              weatherMain := s.weatherMain,
              weatherDescription := s.weatherDescription,
              icon := s.icon, windSpeed := s.windSpeed }]

/-- The `daily_forecasts` dict after the grouping loop has consumed the
given samples, as an insertion-ordered bucket list. -/
def daily_forecasts (samples : List RawSample) : List DayBucket :=
  samples.foldl addSample []

/-- Python `str.title()` (src/main.py lines 202, 280): uppercase the first
letter of every alphabetic run, lowercase the rest. -/
def titleCase (str : String) : String :=
  String.mk (str.toList.foldl
    (fun (acc : List Char × Bool) c =>
      if c.isAlpha then
        (acc.1 ++ [if acc.2 then c.toLower else c.toUpper], true)
      else (acc.1 ++ [c], false))
    ([], false)).1

/-- `min(...)` over a nonempty Python list (src/main.py line 276); the
`[]` case is never reached because buckets hold at least one sample. -/
def minList : List Rat → Rat
  | [] => 0
  | x :: xs => xs.foldl min x

/-- `max(...)` over a nonempty Python list (src/main.py line 277). -/
def maxList : List Rat → Rat
  | [] => 0
  | x :: xs => xs.foldl max x

/-- The `ForecastItem` pydantic model (src/main.py lines 63-71), with the
date as a day number (see `dateOf`). -/
structure ForecastItem where
  date : Nat
  temperature_min : Rat
  temperature_max : Rat
  humidity : Nat
  weather_main : String
  weather_description : String
  icon : String
  wind_speed : Rat
deriving DecidableEq

/-- Building one `ForecastItem` from a day bucket (src/main.py lines
274-283).  `int(sum(h) / len(h))` truncates the exact ratio toward zero;
for the nonnegative integer humidity values this is `Nat` floor
division. -/
def summarize (b : DayBucket) : ForecastItem :=
  { date := b.date
    temperature_min := minList b.temps
    temperature_max := maxList b.temps
    humidity := b.humidity.sum / b.humidity.length
    weather_main := b.weatherMain
    weather_description := titleCase b.weatherDescription
    icon := b.icon
    wind_speed := b.windSpeed }

/-- The full aggregation of `get_weather_forecast` (src/main.py lines
255-283): the loop runs over `data["list"][:days * 8]`, and the bucket
list is truncated again by `list(daily_forecasts.items())[:days]`. -/
def aggregate (samples : List RawSample) (days : Nat) : List ForecastItem :=
  ((daily_forecasts (samples.take (days * 8))).take days).map summarize

/-! ### Location parsing (src/main.py lines 170-177 and 235-242) -/

/-- Parser for Python's `float(str)` on ordinary numeric literals:
surrounding whitespace stripped, optional sign, digits with an optional
decimal point (at least one digit overall, `"1."` and `".5"` accepted),
optional exponent part.  The exotic forms (`inf`, `nan`, underscore
separators) play no role in any claim and are not modelled.
This piece parses the unsigned mantissa. -/
def parseUnsigned (cs : List Char) : Option (Rat × List Char) :=
  let intDs := cs.takeWhile Char.isDigit
  let rest1 := cs.dropWhile Char.isDigit
  match rest1 with
  | '.' :: rest2 =>
    let fracDs := rest2.takeWhile Char.isDigit
    let rest3 := rest2.dropWhile Char.isDigit
    if intDs.length + fracDs.length == 0 then none
    else
      some ((digitsVal intDs : Rat) + (digitsVal fracDs : Rat) / (10 : Rat) ^ fracDs.length,
            rest3)
  | _ =>
    if intDs.length == 0 then none
    else some ((digitsVal intDs : Rat), rest1)
where
  digitsVal (ds : List Char) : Nat :=
    ds.foldl (fun a c => a * 10 + (c.toNat - 48)) 0

/-- The optional exponent part of a Python float literal. -/
def parseExpPart (cs : List Char) : Option (Int × List Char) :=
  match cs with
  | [] => some (0, [])
  | c :: rest =>
    if c == 'e' || c == 'E' then
      let (sgn, rest2) : Int × List Char :=
        match rest with
        | '-' :: r => (-1, r)
        | '+' :: r => (1, r)
        | _ => (1, rest)
      let ds := rest2.takeWhile Char.isDigit
      let rest3 := rest2.dropWhile Char.isDigit
      if ds.length == 0 then none
      else some (sgn * (parseUnsigned.digitsVal ds : Int), rest3)
    else some (0, c :: rest)

/-- Whitespace stripping done by Python `float` before parsing. -/
def trimChars (cs : List Char) : List Char :=
  ((cs.dropWhile Char.isWhitespace).reverse.dropWhile Char.isWhitespace).reverse

/-- Python `float(s)` as an exact rational, `none` on `ValueError`. -/
def pyFloat (s : String) : Option Rat :=
  let cs := trimChars s.toList
  let (sign, cs1) : Rat × List Char :=
    match cs with
    | '-' :: rest => (-1, rest)
    | '+' :: rest => (1, rest)
    | _ => (1, cs)
  match parseUnsigned cs1 with
  | none => none
  | some (mag, rest) =>
    match parseExpPart rest with
    | none => none
    | some (e, rest2) =>
      if rest2.isEmpty then some (sign * mag * (10 : Rat) ^ e) else none

/-- The spec's `LocationQuery` classification outcome at the orchestration
boundary (spec §4.5 `ParseInput`). -/
inductive LocationParse where
  | coords (lat lon : Rat)
  | placeName (q : String)
  | invalid
deriving DecidableEq

/-- Python `str.split(",")`: split at every comma, keeping empty pieces,
so `"" -> [""]`, `"a,,b" -> ["a", "", "b"]`. -/
def splitOnComma : List Char → List (List Char)
  | [] => [[]]
  | c :: rest =>
    if c == ',' then [] :: splitOnComma rest
    else
      match splitOnComma rest with
      | [] => [[c]]
      | p :: ps => (c :: p) :: ps

/-- The location classification of the endpoints (src/main.py lines
170-177 and its copy at 235-242):
`if "," in location and len(location.split(",")) == 2` then
`lat, lon = map(float, location.split(","))` with `ValueError` mapped to
`HTTPException(400, "Invalid coordinates format")`; otherwise the text is
used as a city-name query. -/
def parseLocation (location : String) : LocationParse :=
  let parts := splitOnComma location.toList
  if location.toList.contains ',' && parts.length == 2 then
    match parts.map (fun p => pyFloat (String.mk p)) with
    | [some lat, some lon] => .coords lat lon
    | _ => .invalid
  else .placeName location

/-! ### Response normalization (src/main.py lines 188-216, 323-334)

A raw upstream JSON payload is modelled as a record of `Option` fields:
`data["k"]` on a missing key raises `KeyError`, `data.get("k", d)`
defaults.  The normalization inlined in `get_current_weather` is named
`normalizeCurrent` here. -/

/-- Python dict subscription `data["k"]`: the value, or a raised
`KeyError` when the key is absent. -/
def require {α : Type} (o : Option α) (err : String) : Except String α :=
  match o with
  | some a => Except.ok a
  | none => Except.error err

/-- `data["weather"][0]`: its three fields as read by the code. -/
structure RawWeather where
  main : String
  description : String
  icon : String
deriving DecidableEq

/-- The fields of the current-weather upstream payload that
`get_current_weather` reads (src/main.py lines 191-208), each optional
at the JSON level. -/
structure RawCurrentPayload where
  name : Option String
  sysCountry : Option String
  mainTemp : Option Rat
  mainFeels : Option Rat
  mainHumidity : Option Nat
  mainPressure : Option Nat
  visibility : Option Nat
  windSpeed : Option Rat
  windDeg : Option Int
  weather : List RawWeather
  sysSunrise : Option Nat
  sysSunset : Option Nat
  timezone : Option Int
deriving DecidableEq

/-- The `WeatherResponse` pydantic model (src/main.py lines 45-61). -/
structure WeatherResponse where
  location : String
  country : String
  temperature : Rat
  feels_like : Rat
  humidity : Nat
  pressure : Nat
  visibility : Nat
  wind_speed : Rat
  wind_direction : Int
  weather_main : String
  weather_description : String
  icon : String
  sunrise : Nat
  sunset : Nat
  timezone : Int
  timestamp : Nat
deriving DecidableEq

/-- The transformation `data -> WeatherResponse` inlined in
`get_current_weather` (src/main.py lines 191-208).  Required keys
(`name`, `sys.country`, `main.*`, `weather[0]`, `sys.sunrise`,
`sys.sunset`, `timezone`) raise `KeyError`/`IndexError` when absent;
`visibility` and `wind.*` use `.get(..., 0)` defaults.  The error text
names the missing key; the `Except.error` models the raised exception,
which no handler in the function catches. -/
def normalizeCurrent (data : RawCurrentPayload) (now : Nat) :
    Except String WeatherResponse := do
  let nm ← require data.name "KeyError: name"
  let country ← require data.sysCountry "KeyError: country"
  let temp ← require data.mainTemp "KeyError: temp"
  let feels ← require data.mainFeels "KeyError: feels_like"
  let hum ← require data.mainHumidity "KeyError: humidity"
  let pres ← require data.mainPressure "KeyError: pressure"
  let w ← require data.weather.head? "IndexError: weather"
  let sunrise ← require data.sysSunrise "KeyError: sunrise"
  let sunset ← require data.sysSunset "KeyError: sunset"
  let tz ← require data.timezone "KeyError: timezone"
  Except.ok
    { location := nm
      country := country
      temperature := temp
      feels_like := feels
      humidity := hum
      pressure := pres
      visibility := data.visibility.getD 0
      wind_speed := data.windSpeed.getD 0
      wind_direction := data.windDeg.getD 0
      weather_main := w.main
      weather_description := titleCase w.description
      icon := w.icon
      sunrise := sunrise
      sunset := sunset
      timezone := tz
      timestamp := now }

/-- One element of the geocoding payload read by `search_locations`
(src/main.py lines 325-334): `name`, `country`, `lat`, `lon` are
subscripted (required), `state` uses `.get` (optional). -/
structure RawLocation where
  name : Option String
  country : Option String
  state : Option String
  lat : Option Rat
  lon : Option Rat
deriving DecidableEq

/-- The `LocationResult` pydantic model (src/main.py lines 79-84). -/
structure LocationResult where
  name : String
  country : String
  state : Option String
  lat : Rat
  lon : Rat
deriving DecidableEq

/-- The per-item transformation of the `search_locations` list
comprehension (src/main.py lines 325-334). -/
def normalizeLocation (item : RawLocation) : Except String LocationResult := do
  let nm ← require item.name "KeyError: name"
  let country ← require item.country "KeyError: country"
  let lat ← require item.lat "KeyError: lat"
  let lon ← require item.lon "KeyError: lon"
  Except.ok { name := nm, country := country, state := item.state, lat := lat, lon := lon }

/-! ### Request orchestration (src/main.py lines 154-342)

Each endpoint is a function of the request parameters, the explicit
clock, the single upstream fetch outcome available to this request, and
the cache; it returns the response, the resulting cache, and the number
of upstream calls performed (the code contains exactly one
`client.get` per endpoint and no retry loop, so the count is 0 or 1). -/

/-- The forecast payload fields read by `get_weather_forecast`:
`data["list"]` and `data["city"]["name"]` / `data["city"]["country"]`.
The claims under verification never exercise missing city fields, so
they are kept as plain values. -/
structure RawForecastPayload where
  list : List RawSample
  cityName : String
  cityCountry : String
deriving DecidableEq

/-- Outcome of the single `await client.get(url)`: either the transport
failed (`httpx.RequestError`) or a response with a status code and a
parsed JSON payload arrived. -/
inductive FetchResult (P : Type) where
  | transportError
  | ok (status : Nat) (payload : P)
deriving DecidableEq

/-- A value stored in the heterogeneous `weather_cache` dict. -/
inductive CachedVal where
  | current (w : WeatherResponse)
  | forecast (location country : String) (forecast : List ForecastItem) (timestamp : Nat)
  | locations (ls : List LocationResult)
deriving DecidableEq

/-- Python truthiness of a cached value, as tested by
`if cached_data:` (src/main.py lines 164, 229, 310): pydantic model
instances are always truthy, a list is truthy iff nonempty. -/
def truthy : CachedVal → Bool
  | .locations ls => !ls.isEmpty
  | _ => true

/-- What an endpoint invocation produces: a returned value, a raised
`HTTPException(status, detail)`, or an exception no handler catches
(a `KeyError`/`IndexError` escaping the route handler). -/
inductive EndpointResult where
  | success (v : CachedVal)
  | httpError (status : Nat) (detail : String)
  | uncaught (err : String)
deriving DecidableEq

/-- The spec vocabulary: a caller-visible `ServiceUnavailable` failure is
an `HTTPException` with status 503. -/
def isServiceUnavailable : EndpointResult → Bool
  | .httpError 503 _ => true
  | _ => false

/-- The cache key of `get_weather_forecast` (src/main.py line 227). -/
def forecastKey (location units : String) (days : Nat) : String :=
  get_cache_key "forecast"
    [("location", .s location), ("units", .s units), ("days", .n (days : Int))]

/-- The cache key of `get_current_weather` (src/main.py line 162). -/
def currentKey (location units : String) : String :=
  get_cache_key "current" [("location", .s location), ("units", .s units)]

/-- The cache key of `search_locations` (src/main.py line 308). -/
def locationsKey (query : String) (limit : Nat) : String :=
  get_cache_key "locations" [("query", .s query), ("limit", .n (limit : Int))]

/-- The cache-miss continuation of `get_weather_forecast` (src/main.py
lines 232-298): classify the location, perform the single upstream
call, map the status code exactly as the source's if/elif chain does,
aggregate on 200, store, return. -/
def forecastMissPath (location : String) (days now : Nat)
    (fetch : FetchResult RawForecastPayload) (key : String)
    (cache1 : Cache CachedVal) :
    EndpointResult × Cache CachedVal × Nat :=
  match parseLocation location with
  | .invalid => (.httpError 400 "Invalid coordinates format", cache1, 0)
  | _ =>
    match fetch with
    | .transportError =>
      (.httpError 503 "Unable to connect to weather service", cache1, 1)
    | .ok status data =>
      if status == 401 then
        (.httpError 503 "Weather service unavailable - API key required", cache1, 1)
      else if status == 404 then
        (.httpError 404 ("Location \x27" ++ location ++ "\x27 not found"), cache1, 1)
      else if status != 200 then
        (.httpError 503 "Weather service temporarily unavailable", cache1, 1)
      else
        let fd : CachedVal :=
          .forecast data.cityName data.cityCountry (aggregate data.list days) now
        (.success fd, cache_data key fd now cache1, 1)

/-- `get_weather_forecast` (src/main.py lines 218-298): cache lookup
with Python truthiness, then the miss path. -/
def get_weather_forecast (location units : String) (days now : Nat)
    (fetch : FetchResult RawForecastPayload) (cache : Cache CachedVal) :
    EndpointResult × Cache CachedVal × Nat :=
  let key := forecastKey location units days
  let looked := get_cached_data key now cache
  match looked.1 with
  | some v =>
    if truthy v then (.success v, looked.2, 0)
    else forecastMissPath location days now fetch key looked.2
  | none => forecastMissPath location days now fetch key looked.2

/-- The cache-miss continuation of `get_current_weather` (src/main.py
lines 167-216). -/
def currentMissPath (location : String) (now : Nat)
    (fetch : FetchResult RawCurrentPayload) (key : String)
    (cache1 : Cache CachedVal) :
    EndpointResult × Cache CachedVal × Nat :=
  match parseLocation location with
  | .invalid => (.httpError 400 "Invalid coordinates format", cache1, 0)
  | _ =>
    match fetch with
    | .transportError =>
      (.httpError 503 "Unable to connect to weather service", cache1, 1)
    | .ok status data =>
      if status == 401 then
        (.httpError 503 "Weather service unavailable - API key required", cache1, 1)
      else if status == 404 then
        (.httpError 404 ("Location \x27" ++ location ++ "\x27 not found"), cache1, 1)
      else if status != 200 then
        (.httpError 503 "Weather service temporarily unavailable", cache1, 1)
      else
        match normalizeCurrent data now with
        | .error e => (.uncaught e, cache1, 1)
        | .ok w => (.success (.current w), cache_data key (.current w) now cache1, 1)

/-- `get_current_weather` (src/main.py lines 154-216). -/
def get_current_weather (location units : String) (now : Nat)
    (fetch : FetchResult RawCurrentPayload) (cache : Cache CachedVal) :
    EndpointResult × Cache CachedVal × Nat :=
  let key := currentKey location units
  let looked := get_cached_data key now cache
  match looked.1 with
  | some v =>
    if truthy v then (.success v, looked.2, 0)
    else currentMissPath location now fetch key looked.2
  | none => currentMissPath location now fetch key looked.2

/-- The cache-miss continuation of `search_locations` (src/main.py
lines 313-342); the geocoding endpoint has no 404 arm. -/
def locationsMissPath (now : Nat) (fetch : FetchResult (List RawLocation))
    (key : String) (cache1 : Cache CachedVal) :
    EndpointResult × Cache CachedVal × Nat :=
  match fetch with
  | .transportError =>
    (.httpError 503 "Unable to connect to location service", cache1, 1)
  | .ok status data =>
    if status == 401 then
      (.httpError 503 "Location service unavailable - API key required", cache1, 1)
    else if status != 200 then
      (.httpError 503 "Location service temporarily unavailable", cache1, 1)
    else
      match data.mapM normalizeLocation with
      | .error e => (.uncaught e, cache1, 1)
      | .ok locs =>
        (.success (.locations locs), cache_data key (.locations locs) now cache1, 1)

/-- `search_locations` (src/main.py lines 300-342). -/
def search_locations (query : String) (limit now : Nat)
    (fetch : FetchResult (List RawLocation)) (cache : Cache CachedVal) :
    EndpointResult × Cache CachedVal × Nat :=
  let key := locationsKey query limit
  let looked := get_cached_data key now cache
  match looked.1 with
  | some v =>
    if truthy v then (.success v, looked.2, 0)
    else locationsMissPath now fetch key looked.2
  | none => locationsMissPath now fetch key looked.2

/-! ### First-seen order of date buckets (dict insertion order) -/

/-- Appending a date to the list of seen dates unless already present:
what inserting into the `daily_forecasts` dict does to its key list. -/
def insertSeen (acc : List Nat) (x : Nat) : List Nat :=
  if x ∈ acc then acc else acc ++ [x]

/-- The distinct values of a list in first-encounter order: the key list
of a dict filled in list order. -/
def firstSeen (l : List Nat) : List Nat := l.foldl insertSeen []

/-- Concrete sample run used to refute the universal truncation claim:
41 three-hourly samples on day 0, then one sample on each of days 1-6;
the sequence spans 7 distinct calendar days, but the first
`days * 8 = 40` samples (src/main.py line 257) all fall on day 0. -/
def skewedSamples : List RawSample :=
  List.replicate 41 ⟨0, 10, 50, "Rain", "light rain", "10d", 3⟩ ++
    (List.range 6).map (fun i => ⟨(i + 1) * 86400, 10, 50, "Rain", "light rain", "10d", 3⟩)

/-! ### Specification predicates (stated from the claims, for the
theorems below; not part of the embedded program) -/

/-- What one day bucket of the `daily_forecasts` dict must contain
relative to the already-processed sample prefix `l`: exactly the
temperatures and humidities of the samples of its date in input order,
and the weather object and wind speed of the first such sample. -/
def bucketFaithful (l : List RawSample) (b : DayBucket) : Prop :=
  b.temps = (l.filter (fun s => dateOf s == b.date)).map RawSample.temp ∧
  b.humidity = (l.filter (fun s => dateOf s == b.date)).map RawSample.humidity ∧
  ∃ s0, (l.filter (fun s => dateOf s == b.date)).head? = some s0 ∧
    b.weatherMain = s0.weatherMain ∧
    b.weatherDescription = s0.weatherDescription ∧
    b.icon = s0.icon ∧
    b.windSpeed = s0.windSpeed

/-- The claimed shape of one emitted daily summary with respect to the
bucketed sample list `ss`: min/max temperature over the samples of its
date, truncating integer humidity average, weather fields and wind
speed from the first sample of its date. -/
def dailySummaryCorrect (ss : List RawSample) (item : ForecastItem) : Prop :=
  ∃ s0,
    (ss.filter (fun s => dateOf s == item.date)).head? = some s0 ∧
    item.temperature_min ∈ (ss.filter (fun s => dateOf s == item.date)).map RawSample.temp ∧
    (∀ t ∈ (ss.filter (fun s => dateOf s == item.date)).map RawSample.temp,
      item.temperature_min ≤ t) ∧
    item.temperature_max ∈ (ss.filter (fun s => dateOf s == item.date)).map RawSample.temp ∧
    (∀ t ∈ (ss.filter (fun s => dateOf s == item.date)).map RawSample.temp,
      t ≤ item.temperature_max) ∧
    item.humidity =
      ((ss.filter (fun s => dateOf s == item.date)).map RawSample.humidity).sum /
        ((ss.filter (fun s => dateOf s == item.date)).map RawSample.humidity).length ∧
    item.weather_main = s0.weatherMain ∧
    item.weather_description = titleCase s0.weatherDescription ∧
    item.icon = s0.icon ∧
    item.wind_speed = s0.windSpeed

/-- Two 3-hourly samples on one calendar day, used to instantiate the
aggregation theorems on concrete data. -/
def demoSamples : List RawSample :=
  [⟨0, 10, 50, "Rain", "light rain", "10d", 3⟩,
   ⟨3600, 20, 60, "Rain", "heavy rain", "09d", 4⟩]

/-- The summary `aggregate demoSamples 5` emits. -/
def demoItem : ForecastItem :=
  ⟨0, 10, 20, 55, "Rain", "Light Rain", "10d", 3⟩

/-- A nominally successful current-weather payload whose `name` key is
absent (everything else present). -/
def noNamePayload : RawCurrentPayload :=
  { name := none
    sysCountry := some "GB"
    mainTemp := some 10
    mainFeels := some 9
    mainHumidity := some 50
    mainPressure := some 1000
    visibility := some 10000
    windSpeed := some 4
    windDeg := some 80
    weather := [⟨"Rain", "light rain", "10d"⟩]
    sysSunrise := some 1
    sysSunset := some 2
    timezone := some 0 }

/-- A cache holding a fresh (age 0) empty location list under the
fingerprint of the query `("Lo", 5)`. -/
def demoLocCache : Cache CachedVal :=
  [(locationsKey "Lo" 5, ⟨.locations [], 0⟩)]

/-! ## Cache lemmas -/

theorem find?_cache_data {V : Type} (k : String) (v : V) (t : Nat) :
    ∀ c : Cache V,
      (cache_data k v t c).find? (fun p => p.1 == k) = some (k, ⟨v, t⟩)
  | [] => by simp [cache_data]
  | p :: rest => by
    by_cases h : p.1 == k
    · simp [cache_data, h]
    · simp [cache_data, h, find?_cache_data k v t rest]

theorem get_cached_data_hit_frame {V : Type} (k : String) (now : Nat)
    (c : Cache V) (v : V) (h : (get_cached_data k now c).1 = some v) :
    (get_cached_data k now c).2 = c := by
  unfold get_cached_data at h ⊢
  rcases hf : c.find? (fun p => p.1 == k) with _ | p
  · simp [hf] at h
  · rw [hf] at h ⊢
    by_cases hval : is_cache_valid now p.2.timestamp
    · simp [hval]
    · simp [hval] at h

/-- C1: after `put(k, v)` at time `putTime`, a `get(k)` at a time with
`now - putTime < TTL` (TTL = `CACHE_DURATION` = 600 s) returns `v`;
once the TTL has elapsed (`CACHE_DURATION ≤ now - putTime`), `get(k)`
returns absent and deletes the stale entry, shrinking the stored-item
count by one. -/
theorem cache_ttl_get_put {V : Type} (k : String) (v : V) (putTime now : Nat)
    (c : Cache V) :
    (now - putTime < CACHE_DURATION →
      (get_cached_data k now (cache_data k v putTime c)).1 = some v) ∧
    (CACHE_DURATION ≤ now - putTime →
      (get_cached_data k now (cache_data k v putTime c)).1 = none ∧
      (get_cached_data k now (cache_data k v putTime c)).2.length + 1 =
        (cache_data k v putTime c).length) := by
  constructor
  · intro h
    simp [get_cached_data, find?_cache_data, is_cache_valid, h]
  · intro h
    have hv : ¬ (now - putTime < CACHE_DURATION) := Nat.not_lt.mpr h
    refine ⟨by simp [get_cached_data, find?_cache_data, is_cache_valid, hv], ?_⟩
    have hfind := find?_cache_data k v putTime c
    have hmem : ((k, (⟨v, putTime⟩ : CacheEntry V)) : String × CacheEntry V) ∈
        cache_data k v putTime c := List.mem_of_find?_eq_some hfind
    have hlen : ((cache_data k v putTime c).eraseP (fun q => q.1 == k)).length =
        (cache_data k v putTime c).length - 1 :=
      List.length_eraseP_of_mem hmem (by simp)
    have hpos := List.length_pos_of_mem hmem
    simp [get_cached_data, hfind, is_cache_valid, hv, hlen]
    omega

/-- Witness for `cache_ttl_get_put` at `k = "k"`, `v = 7`,
`putTime = 0`, read once at `now = 10` and once at `now = 600`. -/
theorem cache_ttl_get_put_witness :
    (get_cached_data "k" 10 (cache_data "k" 7 0 ([] : Cache Nat))).1 = some 7 ∧
    (get_cached_data "k" 600 (cache_data "k" 7 0 ([] : Cache Nat))).1 = none ∧
    (get_cached_data "k" 600 (cache_data "k" 7 0 ([] : Cache Nat))).2.length + 1 =
      (cache_data "k" 7 0 ([] : Cache Nat)).length :=
  ⟨(cache_ttl_get_put "k" 7 0 10 []).1 (by decide),
   (cache_ttl_get_put "k" 7 0 600 []).2 (by decide)⟩

/-! ## Cache statistics lemmas -/

theorem stats_foldl {V : Type} (now : Nat) :
    ∀ (c : Cache V) (a b : Nat),
      c.foldl
        (fun acc p =>
          if is_cache_valid now p.2.timestamp then (acc.1 + 1, acc.2)
          else (acc.1, acc.2 + 1))
        (a, b) =
      (a + c.countP (fun p => is_cache_valid now p.2.timestamp),
       b + c.countP (fun p => !is_cache_valid now p.2.timestamp))
  | [], a, b => by simp
  | p :: c, a, b => by
    by_cases h : is_cache_valid now p.2.timestamp
    · simp [List.foldl_cons, h, stats_foldl now c (a + 1) b,
        List.countP_cons, Prod.ext_iff]
      omega
    · simp [List.foldl_cons, h, stats_foldl now c a (b + 1),
        List.countP_cons, Prod.ext_iff]
      omega

theorem countP_not_add {alpha : Type} (p : alpha → Bool) :
    ∀ l : List alpha, l.countP p + l.countP (fun a => !p a) = l.length
  | [] => rfl
  | x :: l => by
    by_cases h : p x <;>
      simp [List.countP_cons, h, ← countP_not_add p l] <;> omega

/-- C8: `stats()` classifies every stored entry as valid or expired by
re-checking the TTL at the current time, reports total / valid /
expired with `valid + expired = total`, and does not mutate the cache:
afterwards the map is exactly what it was, stale entries included —
whereas a `get` on a stale key shrinks the map. -/
theorem cache_stats_read_only {V : Type} (now : Nat) (c : Cache V) :
    (get_cache_stats now c).2 = c ∧
    (get_cache_stats now c).1.1 = c.length ∧
    (get_cache_stats now c).1.2.1 =
      c.countP (fun p => is_cache_valid now p.2.timestamp) ∧
    (get_cache_stats now c).1.2.2 =
      c.countP (fun p => !is_cache_valid now p.2.timestamp) ∧
    (get_cache_stats now c).1.2.1 + (get_cache_stats now c).1.2.2 = c.length ∧
    (∀ k p, c.find? (fun q => q.1 == k) = some p →
      is_cache_valid now p.2.timestamp = false →
      (get_cache_stats now c).2.length = c.length ∧
      (get_cached_data k now ((get_cache_stats now c).2)).2.length + 1 = c.length) := by
  have hstats : get_cache_stats now c =
      ((c.length,
        c.countP (fun p => is_cache_valid now p.2.timestamp),
        c.countP (fun p => !is_cache_valid now p.2.timestamp)), c) := by
    show ((c.length,
      (c.foldl
        (fun acc p =>
          if is_cache_valid now p.2.timestamp then (acc.1 + 1, acc.2)
          else (acc.1, acc.2 + 1)) (0, 0)).1,
      (c.foldl
        (fun acc p =>
          if is_cache_valid now p.2.timestamp then (acc.1 + 1, acc.2)
          else (acc.1, acc.2 + 1)) (0, 0)).2), c) = _
    rw [stats_foldl now c 0 0]
    simp
  refine ⟨by simp [hstats], by simp [hstats], by simp [hstats], by simp [hstats],
    ?_, ?_⟩
  · simp [hstats, countP_not_add]
  · intro k p hfind hstale
    refine ⟨by simp [hstats], ?_⟩
    have hc2 : (get_cache_stats now c).2 = c := by simp [hstats]
    rw [hc2]
    have hmem := List.mem_of_find?_eq_some hfind
    have hp := List.find?_some hfind
    have hlen : (c.eraseP (fun q => q.1 == k)).length = c.length - 1 :=
      List.length_eraseP_of_mem hmem hp
    have hpos := List.length_pos_of_mem hmem
    simp [get_cached_data, hfind, hstale, hlen]
    omega

/-- Witness for `cache_stats_read_only` on a one-entry cache holding a
stale entry (inserted at 0, read at 700). -/
theorem cache_stats_read_only_witness :
    (get_cache_stats 700 [("k", (⟨5, 0⟩ : CacheEntry Nat))]).2.length = 1 ∧
    (get_cached_data "k" 700 ((get_cache_stats 700 [("k", (⟨5, 0⟩ : CacheEntry Nat))]).2)).2.length + 1 = 1 :=
  ((cache_stats_read_only 700 [("k", (⟨5, 0⟩ : CacheEntry Nat))]).2.2.2.2.2) "k"
    ("k", ⟨5, 0⟩) (by decide) (by decide)

/-! ## Fingerprint lemmas -/

theorem lexLeChars_total :
    ∀ a b : List Char, lexLeChars a b = true ∨ lexLeChars b a = true
  | [], _ => Or.inl rfl
  | _ :: _, [] => Or.inr rfl
  | a :: as, b :: bs => by
    rcases lt_trichotomy a b with h | h | h
    · exact Or.inl (by simp [lexLeChars, h])
    · subst h
      rcases lexLeChars_total as bs with ih | ih
      · exact Or.inl (by simp [lexLeChars, ih])
      · exact Or.inr (by simp [lexLeChars, ih])
    · exact Or.inr (by simp [lexLeChars, h])

theorem lexLeChars_trans :
    ∀ a b c : List Char,
      lexLeChars a b = true → lexLeChars b c = true → lexLeChars a c = true
  | [], _, _, _, _ => rfl
  | _ :: _, [], _, h1, _ => by simp [lexLeChars] at h1
  | _ :: _, _ :: _, [], _, h2 => by simp [lexLeChars] at h2
  | a :: as, b :: bs, c :: cs, h1, h2 => by
    rcases lt_trichotomy a b with hab | hab | hab
    · rcases lt_trichotomy b c with hbc | hbc | hbc
      · simp [lexLeChars, lt_trans hab hbc]
      · subst hbc
        simp [lexLeChars, hab]
      · exfalso
        simp [lexLeChars, lt_asymm hbc, hbc] at h2
    · subst hab
      rcases lt_trichotomy a c with hac | hac | hac
      · simp [lexLeChars, hac]
      · subst hac
        simp only [lexLeChars, lt_irrefl, if_false] at h1 h2 ⊢
        exact lexLeChars_trans as bs cs h1 h2
      · exfalso
        simp [lexLeChars, lt_asymm hac, hac] at h2
    · exfalso
      simp [lexLeChars, lt_asymm hab, hab] at h1

theorem lexLeChars_antisymm :
    ∀ a b : List Char, lexLeChars a b = true → lexLeChars b a = true → a = b
  | [], [], _, _ => rfl
  | [], _ :: _, _, h2 => by simp [lexLeChars] at h2
  | _ :: _, [], h1, _ => by simp [lexLeChars] at h1
  | a :: as, b :: bs, h1, h2 => by
    rcases lt_trichotomy a b with hab | hab | hab
    · exfalso
      simp [lexLeChars, hab, lt_asymm hab] at h2
    · subst hab
      simp only [lexLeChars, lt_irrefl, if_false] at h1 h2
      simp [lexLeChars_antisymm as bs h1 h2]
    · exfalso
      simp [lexLeChars, hab, lt_asymm hab] at h1

theorem string_toList_inj {s t : String} (h : s.toList = t.toList) : s = t := by
  cases s
  cases t
  simp [String.toList] at h
  simp [h]

/-- C4: the fingerprint builder is a pure function of the operation name
and the parameter set: two parameter lists that are permutations of each
other (with the distinct keys a dict guarantees) yield the same cache
key, so insertion/iteration order never affects the fingerprint. -/
theorem fingerprint_order_independent (endpoint : String)
    (l1 l2 : List (String × Scalar)) (hperm : l1.Perm l2)
    (hnd : (l1.map Prod.fst).Nodup) :
    get_cache_key endpoint l1 = get_cache_key endpoint l2 := by
  haveI : IsTotal (String × Scalar) keyLe :=
    ⟨fun p q => lexLeChars_total p.1.toList q.1.toList⟩
  haveI : IsTrans (String × Scalar) keyLe :=
    ⟨fun _ _ _ h1 h2 => lexLeChars_trans _ _ _ h1 h2⟩
  haveI : IsAntisymm (String × Scalar)
      (fun p q : String × Scalar => keyLe p q ∧ p.1 ≠ q.1) :=
    ⟨fun _ _ h1 h2 =>
      (h1.2 (string_toList_inj (lexLeChars_antisymm _ _ h1.1 h2.1))).elim⟩
  have hsort : List.insertionSort keyLe l1 = List.insertionSort keyLe l2 := by
    have hp : (List.insertionSort keyLe l1).Perm (List.insertionSort keyLe l2) :=
      (List.perm_insertionSort keyLe l1).trans
        (hperm.trans (List.perm_insertionSort keyLe l2).symm)
    have hs1 : (List.insertionSort keyLe l1).Sorted keyLe :=
      List.sorted_insertionSort keyLe l1
    have hs2 : (List.insertionSort keyLe l2).Sorted keyLe :=
      List.sorted_insertionSort keyLe l2
    have hnd1 : ((List.insertionSort keyLe l1).map Prod.fst).Nodup :=
      (((List.perm_insertionSort keyLe l1).map Prod.fst).nodup_iff).mpr hnd
    have hnd2 : ((List.insertionSort keyLe l2).map Prod.fst).Nodup :=
      (((List.perm_insertionSort keyLe l2).map Prod.fst).nodup_iff).mpr
        ((hperm.map Prod.fst).nodup_iff.mp hnd)
    exact List.eq_of_perm_of_sorted hp
      (hs1.and (List.pairwise_map.mp hnd1))
      (hs2.and (List.pairwise_map.mp hnd2))
  simp [get_cache_key, jsonDumpsSorted, hsort]

/-- Witness for `fingerprint_order_independent`: the two orders of the
`current` endpoint's parameter dict hash identically. -/
theorem fingerprint_order_independent_witness :
    get_cache_key "current" [("location", .s "London"), ("units", .s "metric")] =
      get_cache_key "current" [("units", .s "metric"), ("location", .s "London")] :=
  fingerprint_order_independent "current" _ _
    (List.Perm.swap ("units", Scalar.s "metric") ("location", Scalar.s "London") [])
    (by decide)

/-! ## Aggregation lemmas -/

theorem insertSeen_mem (acc : List Nat) (x y : Nat) :
    y ∈ insertSeen acc x ↔ y ∈ acc ∨ y = x := by
  unfold insertSeen
  by_cases h : x ∈ acc
  · simp only [h, if_true]
    constructor
    · exact Or.inl
    · rintro (hy | rfl)
      · exact hy
      · exact h
  · simp [h]

theorem foldl_insertSeen_mem :
    ∀ (l : List Nat) (acc : List Nat) (y : Nat),
      y ∈ l.foldl insertSeen acc ↔ y ∈ acc ∨ y ∈ l
  | [], acc, y => by simp
  | x :: l, acc, y => by
    simp only [List.foldl_cons]
    rw [foldl_insertSeen_mem l (insertSeen acc x) y]
    simp only [insertSeen_mem, List.mem_cons]
    tauto

theorem mem_firstSeen (l : List Nat) (y : Nat) : y ∈ firstSeen l ↔ y ∈ l := by
  simp [firstSeen, foldl_insertSeen_mem]

theorem firstSeen_append_single (l : List Nat) (x : Nat) :
    firstSeen (l ++ [x]) = insertSeen (firstSeen l) x := by
  simp [firstSeen, List.foldl_append]

theorem daily_forecasts_append (l : List RawSample) (s : RawSample) :
    daily_forecasts (l ++ [s]) = addSample (daily_forecasts l) s := by
  simp [daily_forecasts, List.foldl_append]

theorem map_date_addSample_update (acc : List DayBucket) (s : RawSample) :
    (acc.map (fun b =>
      if b.date = dateOf s then
        { b with temps := b.temps ++ [s.temp], humidity := b.humidity ++ [s.humidity] }
      else b)).map DayBucket.date = acc.map DayBucket.date := by
  induction acc with
  | nil => rfl
  | cons b acc ih =>
    by_cases hb : b.date = dateOf s <;> simp [hb, ih]

theorem daily_forecasts_spec (l : List RawSample) :
    (daily_forecasts l).map DayBucket.date = firstSeen (l.map dateOf) ∧
    ∀ b ∈ daily_forecasts l, bucketFaithful l b := by
  induction l using List.reverseRecOn with
  | nil => simp [daily_forecasts, firstSeen]
  | append_singleton l s ih =>
    obtain ⟨ihdate, ihbuck⟩ := ih
    rw [daily_forecasts_append]
    unfold addSample
    by_cases hseen : (daily_forecasts l).any (fun b => b.date == dateOf s)
    · rw [if_pos hseen]
      have hmem : dateOf s ∈ (daily_forecasts l).map DayBucket.date := by
        rcases List.any_eq_true.mp hseen with ⟨b, hb, hbd⟩
        have hbd' : b.date = dateOf s := by simpa using hbd
        exact hbd' ▸ List.mem_map_of_mem DayBucket.date hb
      have hmemfs : dateOf s ∈ firstSeen (l.map dateOf) := ihdate ▸ hmem
      constructor
      · rw [map_date_addSample_update, ihdate]
        simp only [List.map_append, List.map_cons, List.map_nil]
        rw [firstSeen_append_single]
        simp [insertSeen, hmemfs]
      · intro b' hb'
        rcases List.mem_map.mp hb' with ⟨b, hb, rfl⟩
        obtain ⟨ht, hh, s0, hhead, hwm, hwd, hic, hws⟩ := ihbuck b hb
        by_cases hbd : b.date = dateOf s
        · rw [if_pos hbd]
          have hfil : (l ++ [s]).filter (fun x => dateOf x == b.date) =
              l.filter (fun x => dateOf x == b.date) ++ [s] := by
            rw [List.filter_append]
            simp [hbd]
          have hflne : l.filter (fun x => dateOf x == b.date) ≠ [] := by
            intro hnil
            rw [hnil] at hhead
            simp at hhead
          unfold bucketFaithful
          refine ⟨?_, ?_, s0, ?_, hwm, hwd, hic, hws⟩
          · show b.temps ++ [s.temp] =
              ((l ++ [s]).filter (fun x => dateOf x == b.date)).map RawSample.temp
            rw [hfil, List.map_append, ← ht]
            rfl
          · show b.humidity ++ [s.humidity] =
              ((l ++ [s]).filter (fun x => dateOf x == b.date)).map RawSample.humidity
            rw [hfil, List.map_append, ← hh]
            rfl
          · show ((l ++ [s]).filter (fun x => dateOf x == b.date)).head? = some s0
            rw [hfil]
            rcases hfl : l.filter (fun x => dateOf x == b.date) with _ | ⟨a, rest⟩
            · exact absurd hfl hflne
            · rw [hfl] at hhead
              simpa using hhead
        · rw [if_neg hbd]
          have hfil : (l ++ [s]).filter (fun x => dateOf x == b.date) =
              l.filter (fun x => dateOf x == b.date) := by
            rw [List.filter_append]
            simp [Ne.symm hbd]
          unfold bucketFaithful
          rw [hfil]
          exact ⟨ht, hh, s0, hhead, hwm, hwd, hic, hws⟩
    · rw [if_neg hseen]
      have hnotmem : dateOf s ∉ (daily_forecasts l).map DayBucket.date := by
        intro hmem
        apply hseen
        rcases List.mem_map.mp hmem with ⟨b, hb, hbd⟩
        exact List.any_eq_true.mpr ⟨b, hb, by simp [hbd]⟩
      have hnotfs : dateOf s ∉ firstSeen (l.map dateOf) := ihdate ▸ hnotmem
      have hnotl : dateOf s ∉ l.map dateOf := fun hx =>
        hnotfs ((mem_firstSeen _ _).mpr hx)
      constructor
      · rw [List.map_append, ihdate]
        simp only [List.map_append, List.map_cons, List.map_nil]
        rw [firstSeen_append_single]
        simp [insertSeen, hnotfs]
      · intro b' hb'
        rcases List.mem_append.mp hb' with hb | hb
        · have hdne : b'.date ≠ dateOf s := fun he =>
            hnotmem (he ▸ List.mem_map_of_mem DayBucket.date hb)
          obtain ⟨ht, hh, s0, hhead, hwm, hwd, hic, hws⟩ := ihbuck b' hb
          have hfil : (l ++ [s]).filter (fun x => dateOf x == b'.date) =
              l.filter (fun x => dateOf x == b'.date) := by
            rw [List.filter_append]
            simp [Ne.symm hdne]
          unfold bucketFaithful
          rw [hfil]
          exact ⟨ht, hh, s0, hhead, hwm, hwd, hic, hws⟩
        · have hbeq : b' = { date := dateOf s, temps := [s.temp], humidity := [s.humidity], weatherMain := s.weatherMain, weatherDescription := s.weatherDescription, icon := s.icon, windSpeed := s.windSpeed } := by
            simpa using hb
          subst hbeq
          have hfl : l.filter (fun x => dateOf x == dateOf s) = [] := by
            rw [List.filter_eq_nil_iff]
            intro x hx hbeq
            refine hnotl ?_
            have hde : dateOf x = dateOf s := by simpa using hbeq
            exact hde ▸ List.mem_map_of_mem dateOf hx
          have hfil : (l ++ [s]).filter (fun x => dateOf x == dateOf s) = [s] := by
            rw [List.filter_append, hfl]
            simp
          unfold bucketFaithful
          refine ⟨?_, ?_, s, ?_, rfl, rfl, rfl, rfl⟩
          · show [s.temp] =
              ((l ++ [s]).filter (fun x => dateOf x == dateOf s)).map RawSample.temp
            rw [hfil]
            rfl
          · show [s.humidity] =
              ((l ++ [s]).filter (fun x => dateOf x == dateOf s)).map RawSample.humidity
            rw [hfil]
            rfl
          · show ((l ++ [s]).filter (fun x => dateOf x == dateOf s)).head? = some s
            rw [hfil]
            rfl

/-! ## Min / max over nonempty lists -/

theorem foldl_min_le :
    ∀ (l : List Rat) (a : Rat), l.foldl min a ≤ a ∧ ∀ x ∈ l, l.foldl min a ≤ x
  | [], a => ⟨le_refl a, by simp⟩
  | x :: l, a => by
    obtain ⟨h1, h2⟩ := foldl_min_le l (min a x)
    refine ⟨le_trans h1 (min_le_left a x), ?_⟩
    intro y hy
    rcases List.mem_cons.mp hy with rfl | hy
    · exact le_trans h1 (min_le_right a y)
    · exact h2 y hy

theorem foldl_min_mem :
    ∀ (l : List Rat) (a : Rat), l.foldl min a = a ∨ l.foldl min a ∈ l
  | [], _ => Or.inl rfl
  | x :: l, a => by
    rcases foldl_min_mem l (min a x) with h | h
    · rcases min_choice a x with he | he
      · exact Or.inl (by rw [List.foldl_cons, h, he])
      · refine Or.inr ?_
        rw [List.foldl_cons, h, he]
        exact List.mem_cons_self x l
    · exact Or.inr (List.mem_cons_of_mem x (by rw [List.foldl_cons]; exact h))

theorem minList_spec (l : List Rat) (hne : l ≠ []) :
    minList l ∈ l ∧ ∀ x ∈ l, minList l ≤ x := by
  cases l with
  | nil => exact absurd rfl hne
  | cons x xs =>
    obtain ⟨h1, h2⟩ := foldl_min_le xs x
    constructor
    · rcases foldl_min_mem xs x with h | h
      · simp only [minList, h]
        exact List.mem_cons_self x xs
      · simp only [minList]
        exact List.mem_cons_of_mem x h
    · intro y hy
      rcases List.mem_cons.mp hy with rfl | hy
      · exact h1
      · exact h2 y hy

theorem foldl_max_ge :
    ∀ (l : List Rat) (a : Rat), a ≤ l.foldl max a ∧ ∀ x ∈ l, x ≤ l.foldl max a
  | [], a => ⟨le_refl a, by simp⟩
  | x :: l, a => by
    obtain ⟨h1, h2⟩ := foldl_max_ge l (max a x)
    refine ⟨le_trans (le_max_left a x) h1, ?_⟩
    intro y hy
    rcases List.mem_cons.mp hy with rfl | hy
    · exact le_trans (le_max_right a y) h1
    · exact h2 y hy

theorem foldl_max_mem :
    ∀ (l : List Rat) (a : Rat), l.foldl max a = a ∨ l.foldl max a ∈ l
  | [], _ => Or.inl rfl
  | x :: l, a => by
    rcases foldl_max_mem l (max a x) with h | h
    · rcases max_choice a x with he | he
      · exact Or.inl (by rw [List.foldl_cons, h, he])
      · refine Or.inr ?_
        rw [List.foldl_cons, h, he]
        exact List.mem_cons_self x l
    · exact Or.inr (List.mem_cons_of_mem x (by rw [List.foldl_cons]; exact h))

theorem maxList_spec (l : List Rat) (hne : l ≠ []) :
    maxList l ∈ l ∧ ∀ x ∈ l, x ≤ maxList l := by
  cases l with
  | nil => exact absurd rfl hne
  | cons x xs =>
    obtain ⟨h1, h2⟩ := foldl_max_ge xs x
    constructor
    · rcases foldl_max_mem xs x with h | h
      · simp only [maxList, h]
        exact List.mem_cons_self x xs
      · simp only [maxList]
        exact List.mem_cons_of_mem x h
    · intro y hy
      rcases List.mem_cons.mp hy with rfl | hy
      · exact h1
      · exact h2 y hy

/-! ## The aggregation claims -/

/-- C2: every summary emitted by the aggregation carries the minimum and
maximum of all temperatures bucketed for its date, the truncating
integer average of the bucketed humidities, and the weather code, text
(title-cased) and wind speed of the first sample of that date. -/
theorem aggregate_day_summary (samples : List RawSample) (days : Nat)
    (item : ForecastItem) (hmem : item ∈ aggregate samples days) :
    dailySummaryCorrect (samples.take (days * 8)) item := by
  obtain ⟨b, hb, rfl⟩ := List.mem_map.mp hmem
  have hb' : b ∈ daily_forecasts (samples.take (days * 8)) :=
    List.take_subset days _ hb
  obtain ⟨_, hfaith⟩ := daily_forecasts_spec (samples.take (days * 8))
  obtain ⟨ht, hh, s0, hhead, hwm, hwd, hic, hws⟩ := hfaith b hb'
  have hgrpne : (samples.take (days * 8)).filter (fun x => dateOf x == b.date) ≠ [] := by
    intro hnil
    rw [hnil] at hhead
    simp at hhead
  have htempsne : ((samples.take (days * 8)).filter
      (fun x => dateOf x == b.date)).map RawSample.temp ≠ [] := by
    simpa using hgrpne
  obtain ⟨hminmem, hminle⟩ := minList_spec _ htempsne
  obtain ⟨hmaxmem, hmaxge⟩ := maxList_spec _ htempsne
  refine ⟨s0, hhead, ?_, ?_, ?_, ?_, ?_, ?_, ?_, ?_, ?_⟩
  · simpa only [summarize, ht] using hminmem
  · intro t htmem
    simpa only [summarize, ht] using hminle t (ht ▸ htmem)
  · simpa only [summarize, ht] using hmaxmem
  · intro t htmem
    simpa only [summarize, ht] using hmaxge t (ht ▸ htmem)
  · simp only [summarize, hh]
  · simpa only [summarize] using hwm
  · simp only [summarize, hwd]
  · simpa only [summarize] using hic
  · simpa only [summarize] using hws

/-- Witness for `aggregate_day_summary` on `demoSamples`. -/
theorem aggregate_day_summary_witness :
    demoItem ∈ aggregate demoSamples 5 ∧
    dailySummaryCorrect (demoSamples.take (5 * 8)) demoItem :=
  ⟨by decide, aggregate_day_summary demoSamples 5 demoItem (by decide)⟩

/-- C3 (amended): when the first `maxDays * 8` samples — the only ones
the grouping loop reads (src/main.py line 257) — span at least
`maxDays` distinct calendar days, the aggregation returns exactly
`maxDays` summaries, namely the first `maxDays` days encountered among
those samples, in first-seen order. -/
theorem aggregate_truncation (samples : List RawSample) (days : Nat)
    (h : days ≤ (firstSeen ((samples.take (days * 8)).map dateOf)).length) :
    (aggregate samples days).length = days ∧
    (aggregate samples days).map ForecastItem.date =
      (firstSeen ((samples.take (days * 8)).map dateOf)).take days := by
  obtain ⟨hdates, _⟩ := daily_forecasts_spec (samples.take (days * 8))
  have hlen : (daily_forecasts (samples.take (days * 8))).length =
      (firstSeen ((samples.take (days * 8)).map dateOf)).length := by
    rw [← hdates, List.length_map]
  constructor
  · simp only [aggregate, List.length_map, List.length_take]
    omega
  · simp only [aggregate, List.map_map]
    have hcomp : ((daily_forecasts (samples.take (days * 8))).take days).map
        (ForecastItem.date ∘ summarize) =
        ((daily_forecasts (samples.take (days * 8))).take days).map DayBucket.date :=
      List.map_congr_left (fun b _ => rfl)
    rw [hcomp, List.map_take, hdates]

/-- Witness for `aggregate_truncation` with `maxDays = 1` on
`demoSamples` (one distinct day among the first 8 samples). -/
theorem aggregate_truncation_witness :
    (aggregate demoSamples 1).length = 1 ∧
    (aggregate demoSamples 1).map ForecastItem.date =
      (firstSeen ((demoSamples.take (1 * 8)).map dateOf)).take 1 :=
  aggregate_truncation demoSamples 1 (by decide)

/-- C3 counterexample: `skewedSamples` spans 7 distinct calendar days
(more than `maxDays = 5`), yet the aggregation emits a single summary
instead of the claimed five, because the loop reads only the first
`days * 8 = 40` samples, all of which fall on day 0. -/
theorem aggregate_truncation_counterexample :
    (firstSeen (skewedSamples.map dateOf)).length = 7 ∧
    (aggregate skewedSamples 5).length = 1 := by
  constructor
  · decide
  · decide

/-- C9: the aggregation is total and maps the empty sample sequence to
the empty summary sequence for every `maxDays`. -/
theorem aggregate_empty (days : Nat) : aggregate [] days = [] := by
  simp [aggregate, daily_forecasts]

/-! ## Location-parsing lemmas (C5) -/

theorem except_bind_error {A B : Type} (e : String) (f : A → Except String B) :
    (Except.error e >>= f) = (Except.error e : Except String B) := rfl

theorem except_bind_ok {A B : Type} (a : A) (f : A → Except String B) :
    (Except.ok a >>= f) = f a := rfl

theorem splitOnComma_ne_nil : ∀ cs : List Char, splitOnComma cs ≠ []
  | [] => by simp [splitOnComma]
  | c :: rest => by
    unfold splitOnComma
    by_cases h : (c == ',') = true
    · simp [h]
    · rw [if_neg h]
      rcases hsp : splitOnComma rest with _ | ⟨p, ps⟩ <;> simp

theorem splitOnComma_no_comma :
    ∀ cs : List Char, cs.contains ',' = false → (splitOnComma cs).length = 1
  | [] => fun _ => rfl
  | c :: rest => fun h => by
    simp only [List.contains_cons, Bool.or_eq_false_iff] at h
    obtain ⟨h1, h2⟩ := h
    have hne : ¬ (c == ',') = true := by
      intro hcc
      have : c = ',' := by simpa using hcc
      subst this
      simp at h1
    unfold splitOnComma
    rw [if_neg hne]
    have hlen := splitOnComma_no_comma rest h2
    rcases hsp : splitOnComma rest with _ | ⟨p, ps⟩
    · exact absurd hsp (splitOnComma_ne_nil rest)
    · rw [hsp] at hlen
      simpa using hlen

theorem contains_comma_of_two_parts (cs : List Char)
    (h : (splitOnComma cs).length = 2) : cs.contains ',' = true := by
  by_contra hfalse
  have : cs.contains ',' = false := by
    rcases hc : cs.contains ',' with _ | _
    · rfl
    · exact absurd hc hfalse
  rw [splitOnComma_no_comma cs this] at h
  omega

/-- C5 (amended): the classification of the location argument.  The
string `"51.5,-0.12"` is parsed as Coordinates and `"London"` as a
place name; a string whose comma-split has exactly two fields becomes
Coordinates when both fields parse as floats and an `InvalidInput`
(HTTP 400) failure when either does not; but a string whose comma-split
has any other number of fields — e.g. three comma-separated numbers —
is classified as a PlaceName and hence IS forwarded upstream as a text
search, not rejected. -/
theorem parse_location_classification :
    (∃ lat lon, parseLocation "51.5,-0.12" = .coords lat lon) ∧
    parseLocation "London" = .placeName "London" ∧
    (∀ loc : String, (splitOnComma loc.toList).length ≠ 2 →
      parseLocation loc = .placeName loc) ∧
    (∀ (loc : String) (a b : List Char), splitOnComma loc.toList = [a, b] →
      pyFloat (String.mk a) = none ∨ pyFloat (String.mk b) = none →
      parseLocation loc = .invalid) ∧
    (∀ (loc : String) (a b : List Char) (x y : Rat),
      splitOnComma loc.toList = [a, b] →
      pyFloat (String.mk a) = some x → pyFloat (String.mk b) = some y →
      parseLocation loc = .coords x y) := by
  refine ⟨⟨_, _, rfl⟩, rfl, ?_, ?_, ?_⟩
  · intro loc h
    have h' : (splitOnComma loc.data).length ≠ 2 := by
      simpa [String.toList] using h
    simp [parseLocation, String.toList, h']
  · intro loc a b hsplit hor
    have hsplit' : splitOnComma loc.data = [a, b] := by
      simpa [String.toList] using hsplit
    have hcon : loc.toList.contains ',' = true :=
      contains_comma_of_two_parts _ (by rw [hsplit]; rfl)
    have hmem : ',' ∈ loc.data := by
      simpa [String.toList] using hcon
    rcases ha : pyFloat (String.mk a) with _ | x
    · rcases hbf : pyFloat (String.mk b) with _ | y
      · simp [parseLocation, String.toList, hsplit', hmem, ha, hbf]
      · simp [parseLocation, String.toList, hsplit', hmem, ha, hbf]
    · rcases hbf : pyFloat (String.mk b) with _ | y
      · simp [parseLocation, String.toList, hsplit', hmem, ha, hbf]
      · exfalso
        rcases hor with h | h
        · rw [ha] at h
          exact absurd h (by simp)
        · rw [hbf] at h
          exact absurd h (by simp)
  · intro loc a b x y hsplit ha hbf
    have hsplit' : splitOnComma loc.data = [a, b] := by
      simpa [String.toList] using hsplit
    have hcon : loc.toList.contains ',' = true :=
      contains_comma_of_two_parts _ (by rw [hsplit]; rfl)
    have hmem : ',' ∈ loc.data := by
      simpa [String.toList] using hcon
    simp [parseLocation, String.toList, hsplit', hmem, ha, hbf]

/-- Witness for `parse_location_classification`: a three-field string is
classified as a place name, and a two-field non-numeric string is
rejected as invalid input. -/
theorem parse_location_classification_witness :
    parseLocation "a,b,c" = .placeName "a,b,c" ∧
    parseLocation "x,y" = .invalid :=
  ⟨parse_location_classification.2.2.1 "a,b,c" (by decide),
   parse_location_classification.2.2.2.1 "x,y" ['x'] ['y'] (by decide)
     (Or.inl (by decide))⟩

/-- C5 counterexample: the malformed coordinate text `"10,20,30"`
(wrong field count) is NOT rejected as `InvalidInput`; the code
classifies it as a place name, which is forwarded upstream as a text
query. -/
theorem parse_location_counterexample :
    parseLocation "10,20,30" = .placeName "10,20,30" ∧
    ¬ parseLocation "10,20,30" = .invalid := by
  constructor
  · decide
  · decide

/-! ## Orchestrator error handling (C6) -/

/-- C6: on a forecast cache miss with a parseable location, upstream
HttpError 404 yields the 404 not-found HTTPException; HttpError 401 and
every other non-200 status yield the 503 service-unavailable
HTTPException; a transport failure yields 503; and in every one of
these failure cases the returned cache is exactly what the lookup left
(no entry written) and exactly one upstream attempt is recorded. -/
theorem forecast_error_handling (location units : String) (days now : Nat)
    (fetch : FetchResult RawForecastPayload) (cache : Cache CachedVal)
    (hmiss : (get_cached_data (forecastKey location units days) now cache).1 = none)
    (hparse : parseLocation location ≠ .invalid) :
    (fetch = .transportError →
      get_weather_forecast location units days now fetch cache =
        (.httpError 503 "Unable to connect to weather service",
         (get_cached_data (forecastKey location units days) now cache).2, 1)) ∧
    (∀ p, fetch = .ok 404 p →
      get_weather_forecast location units days now fetch cache =
        (.httpError 404 ("Location \x27" ++ location ++ "\x27 not found"),
         (get_cached_data (forecastKey location units days) now cache).2, 1)) ∧
    (∀ p, fetch = .ok 401 p →
      get_weather_forecast location units days now fetch cache =
        (.httpError 503 "Weather service unavailable - API key required",
         (get_cached_data (forecastKey location units days) now cache).2, 1)) ∧
    (∀ p status, fetch = .ok status p → status ≠ 200 → status ≠ 401 → status ≠ 404 →
      get_weather_forecast location units days now fetch cache =
        (.httpError 503 "Weather service temporarily unavailable",
         (get_cached_data (forecastKey location units days) now cache).2, 1)) := by
  have hrun : ∀ f, get_weather_forecast location units days now f cache =
      forecastMissPath location days now f (forecastKey location units days)
        (get_cached_data (forecastKey location units days) now cache).2 := by
    intro f
    have hm := hmiss
    simp only [get_weather_forecast]
    rcases hE : get_cached_data (forecastKey location units days) now cache with ⟨o, c1⟩
    rw [hE] at hm
    simp only at hm
    subst hm
    rfl
  refine ⟨?_, ?_, ?_, ?_⟩
  · rintro rfl
    rw [hrun]
    cases hp : parseLocation location with
    | invalid => exact absurd hp hparse
    | coords lat lon => simp [forecastMissPath, hp]
    | placeName q => simp [forecastMissPath, hp]
  · rintro p rfl
    rw [hrun]
    cases hp : parseLocation location with
    | invalid => exact absurd hp hparse
    | coords lat lon => simp [forecastMissPath, hp]
    | placeName q => simp [forecastMissPath, hp]
  · rintro p rfl
    rw [hrun]
    cases hp : parseLocation location with
    | invalid => exact absurd hp hparse
    | coords lat lon => simp [forecastMissPath, hp]
    | placeName q => simp [forecastMissPath, hp]
  · rintro p status rfl h200 h401 h404
    rw [hrun]
    cases hp : parseLocation location with
    | invalid => exact absurd hp hparse
    | coords lat lon => simp [forecastMissPath, hp, h200, h401, h404]
    | placeName q => simp [forecastMissPath, hp, h200, h401, h404]

/-- Witness for `forecast_error_handling`: a 404 upstream reply on an
empty cache. -/
theorem forecast_error_handling_witness :
    get_weather_forecast "London" "metric" 5 0
      (.ok 404 ⟨[], "x", "y"⟩) [] =
      (.httpError 404 ("Location \x27" ++ "London" ++ "\x27 not found"),
       (get_cached_data (forecastKey "London" "metric" 5) 0 ([] : Cache CachedVal)).2,
       1) :=
  (forecast_error_handling "London" "metric" 5 0 (.ok 404 ⟨[], "x", "y"⟩) []
    rfl (by decide)).2.1 ⟨[], "x", "y"⟩ rfl

/-! ## Normalizer missing-field behaviour (C7) -/

/-- C7 (amended): a nominally successful (HTTP 200) current-weather
payload missing a required field does fail loudly — the normalizer
raises (`KeyError`/`IndexError`), the response is never silently
defaulted, and nothing is cached — but the failure escapes the handler
as an uncaught exception (an internal error), NOT as a 503
service-unavailable condition. -/
theorem normalizer_missing_field (location units : String) (now : Nat)
    (cache : Cache CachedVal) (data : RawCurrentPayload)
    (hmiss : (get_cached_data (currentKey location units) now cache).1 = none)
    (hparse : parseLocation location ≠ .invalid) :
    (∀ e, normalizeCurrent data now = .error e →
      get_current_weather location units now (.ok 200 data) cache =
        (.uncaught e, (get_cached_data (currentKey location units) now cache).2, 1) ∧
      isServiceUnavailable
        (get_current_weather location units now (.ok 200 data) cache).1 = false) ∧
    (data.name = none → normalizeCurrent data now = .error "KeyError: name") ∧
    (data.sysCountry = none → ∃ e, normalizeCurrent data now = .error e) ∧
    (data.weather = [] → ∃ e, normalizeCurrent data now = .error e) := by
  have hrun : ∀ f, get_current_weather location units now f cache =
      currentMissPath location now f (currentKey location units)
        (get_cached_data (currentKey location units) now cache).2 := by
    intro f
    have hm := hmiss
    simp only [get_current_weather]
    rcases hE : get_cached_data (currentKey location units) now cache with ⟨o, c1⟩
    rw [hE] at hm
    simp only at hm
    subst hm
    rfl
  refine ⟨?_, ?_, ?_, ?_⟩
  · intro e hnorm
    have hres : get_current_weather location units now (.ok 200 data) cache =
        (.uncaught e, (get_cached_data (currentKey location units) now cache).2, 1) := by
      rw [hrun]
      cases hp : parseLocation location with
      | invalid => exact absurd hp hparse
      | coords lat lon => simp [currentMissPath, hp, hnorm]
      | placeName q => simp [currentMissPath, hp, hnorm]
    refine ⟨hres, ?_⟩
    rw [hres]
    rfl
  · intro hn
    unfold normalizeCurrent
    rw [hn]
    simp [require, except_bind_error]
  · intro hc
    rcases hn : data.name with _ | nm
    · refine ⟨"KeyError: name", ?_⟩
      unfold normalizeCurrent
      rw [hn]
      simp [require, except_bind_error]
    · refine ⟨"KeyError: country", ?_⟩
      unfold normalizeCurrent
      rw [hn, hc]
      simp [require, except_bind_ok, except_bind_error]
  · intro hw
    rcases hn : data.name with _ | nm
    · refine ⟨"KeyError: name", ?_⟩
      unfold normalizeCurrent
      rw [hn]
      simp [require, except_bind_error]
    · rcases hc : data.sysCountry with _ | ct
      · refine ⟨"KeyError: country", ?_⟩
        unfold normalizeCurrent
        rw [hn, hc]
        simp [require, except_bind_ok, except_bind_error]
      · rcases htp : data.mainTemp with _ | temp
        · refine ⟨"KeyError: temp", ?_⟩
          unfold normalizeCurrent
          rw [hn, hc, htp]
          simp [require, except_bind_ok, except_bind_error]
        · rcases hf : data.mainFeels with _ | feels
          · refine ⟨"KeyError: feels_like", ?_⟩
            unfold normalizeCurrent
            rw [hn, hc, htp, hf]
            simp [require, except_bind_ok, except_bind_error]
          · rcases hhu : data.mainHumidity with _ | hum
            · refine ⟨"KeyError: humidity", ?_⟩
              unfold normalizeCurrent
              rw [hn, hc, htp, hf, hhu]
              simp [require, except_bind_ok, except_bind_error]
            · rcases hpr : data.mainPressure with _ | pres
              · refine ⟨"KeyError: pressure", ?_⟩
                unfold normalizeCurrent
                rw [hn, hc, htp, hf, hhu, hpr]
                simp [require, except_bind_ok, except_bind_error]
              · refine ⟨"IndexError: weather", ?_⟩
                unfold normalizeCurrent
                rw [hn, hc, htp, hf, hhu, hpr, hw]
                simp [require, except_bind_ok, except_bind_error]

/-- Witness for `normalizer_missing_field` at `noNamePayload`. -/
theorem normalizer_missing_field_witness :
    get_current_weather "London" "metric" 0 (.ok 200 noNamePayload) [] =
      (.uncaught "KeyError: name",
       (get_cached_data (currentKey "London" "metric") 0 ([] : Cache CachedVal)).2,
       1) ∧
    isServiceUnavailable
      (get_current_weather "London" "metric" 0 (.ok 200 noNamePayload) []).1 = false :=
  (normalizer_missing_field "London" "metric" 0 [] noNamePayload rfl
    (by decide)).1 "KeyError: name" rfl

/-- C7 counterexample: at `noNamePayload` (200 reply, `name` absent) the
endpoint raises an uncaught `KeyError` — an internal error — and does
NOT surface a 503 service-unavailable condition as claimed. -/
theorem normalizer_missing_field_counterexample :
    (get_current_weather "London" "metric" 0 (.ok 200 noNamePayload) []).1 =
      .uncaught "KeyError: name" ∧
    isServiceUnavailable
      (get_current_weather "London" "metric" 0 (.ok 200 noNamePayload) []).1 = false := by
  constructor
  · decide
  · decide

/-! ## Falsy cached values (C10) -/

/-- C10: when a falsy value — the empty list a no-match location search
stores — sits fresh in the cache under the request fingerprint, the
endpoint still treats the request as a miss: the upstream is contacted
again (one call even though a valid entry exists) and, on a 200 reply,
the stored entry is overwritten rather than served. -/
theorem falsy_cached_value_is_miss (query : String) (limit now : Nat)
    (cache : Cache CachedVal)
    (hcached : (get_cached_data (locationsKey query limit) now cache).1 =
      some (.locations [])) :
    (∀ fetch, (search_locations query limit now fetch cache).2.2 = 1) ∧
    (∀ data locs, data.mapM normalizeLocation = .ok locs →
      search_locations query limit now (.ok 200 data) cache =
        (.success (.locations locs),
         cache_data (locationsKey query limit) (.locations locs) now cache, 1)) := by
  have hframe : (get_cached_data (locationsKey query limit) now cache).2 = cache :=
    get_cached_data_hit_frame _ _ _ _ hcached
  have hrun : ∀ f, search_locations query limit now f cache =
      locationsMissPath now f (locationsKey query limit) cache := by
    intro f
    have hm := hcached
    have hf := hframe
    simp only [search_locations]
    rcases hE : get_cached_data (locationsKey query limit) now cache with ⟨o, c1⟩
    rw [hE] at hm hf
    simp only at hm hf
    subst hm
    subst hf
    simp [truthy]
  constructor
  · intro fetch
    rw [hrun]
    rcases fetch with _ | ⟨status, data⟩
    · rfl
    · simp only [locationsMissPath]
      by_cases h1 : (status == 401) = true
      · rw [if_pos h1]
      · rw [if_neg h1]
        by_cases h2 : (status != 200) = true
        · rw [if_pos h2]
        · rw [if_neg h2]
          rcases hm : data.mapM normalizeLocation with e | locs
          · rfl
          · rfl
  · intro data locs hm
    rw [hrun]
    simp only [locationsMissPath]
    rw [if_neg (by decide), if_neg (by decide), hm]

/-- Witness for `falsy_cached_value_is_miss` on `demoLocCache`. -/
theorem falsy_cached_value_is_miss_witness :
    search_locations "Lo" 5 0
      (.ok 200 [⟨some "London", some "GB", none, some 51, some 0⟩]) demoLocCache =
      (.success (.locations [⟨"London", "GB", none, 51, 0⟩]),
       cache_data (locationsKey "Lo" 5)
         (.locations [⟨"London", "GB", none, 51, 0⟩]) 0 demoLocCache, 1) :=
  (falsy_cached_value_is_miss "Lo" 5 0 demoLocCache (by decide)).2
    [⟨some "London", some "GB", none, some 51, some 0⟩]
    [⟨"London", "GB", none, 51, 0⟩] rfl

end Weather
